import Mathlib

/-
Verification development for the nebula-backend repository: a shallow
embedding in Lean 4 of the identifier validator, the JWT mint/verify
pair, the request authorizer and data-plane handler helpers, the error
classifier, the list-records query planner, the API-key metadata store
and the sliding-window rate limiter, together with theorems settling the
specification claims about them.
-/

namespace Nebula

/- ===================== C1 of the spec: identifier validator =====================
   Source: internal/core/validation.go -/

/-- Model of the character class of the Go regular expression
`^[a-zA-Z0-9_]+$` (internal/core/validation.go, nameValidationRegex). -/
def isNameChar (c : Char) : Bool :=
  (('a' ≤ c) && (c ≤ 'z')) || (('A' ≤ c) && (c ≤ 'Z')) ||
  (('0' ≤ c) && (c ≤ '9')) || (c = '_')

/-- Model of `nameValidationRegex.MatchString name`: the whole string is a
nonempty run of word characters. -/
def nameValidationMatch (s : String) : Bool :=
  (!s.data.isEmpty) && s.data.all isNameChar

/-- Number of bytes of the UTF-8 encoding of a character (model of the byte
width used by Go's `len` on strings). -/
def charUtf8Bytes (c : Char) : Nat :=
  if c.toNat ≤ 0x7F then 1
  else if c.toNat ≤ 0x7FF then 2
  else if c.toNat ≤ 0xFFFF then 3
  else 4

/-- Model of Go's `len(s)` on a string: the UTF-8 byte length. -/
def goStrLen (s : String) : Nat :=
  (s.data.map charUtf8Bytes).sum

/-- Embedding of `core.IsValidIdentifier` (internal/core/validation.go):
`nameValidationRegex.MatchString(name) && len(name) > 0 && len(name) <= 64`. -/
def IsValidIdentifier (s : String) : Bool :=
  nameValidationMatch s && decide (0 < goStrLen s) && decide (goStrLen s ≤ 64)

/-- Model of Go's strings.ToLower on the ASCII range, which is the range the
identifier validator admits. -/
def strToLower (s : String) : String :=
  ⟨s.data.map Char.toLower⟩

/-- The property the spec states for a single character of an identifier:
it belongs to the class `[A-Za-z0-9_]`. -/
def WordCharSpec (c : Char) : Prop :=
  ('A' ≤ c ∧ c ≤ 'Z') ∨ ('a' ≤ c ∧ c ≤ 'z') ∨ ('0' ≤ c ∧ c ≤ '9') ∨ c = '_'

/- ===================== Auth core: JWT mint and verify =====================
   Source: internal/auth/auth.go (GenerateJWT, ValidateJWT) together with the
   parsing/verification behaviour of the github.com/golang-jwt/jwt/v5 library
   that ValidateJWT drives. -/

/-- Signing algorithm named in a token header (jwt/v5 signing methods). -/
inductive JwtAlg
  | HS256
  | HS384
  | HS512
  | RS256
  | ES256
  | none_
deriving DecidableEq, Repr

/-- The check performed by ValidateJWT's key function: a type assertion to the
HMAC family `*jwt.SigningMethodHMAC`, which covers HS256, HS384 and HS512. -/
def JwtAlg.isHMAC : JwtAlg → Bool
  | .HS256 => true
  | .HS384 => true
  | .HS512 => true
  | _ => false

/-- Abstract model of a serialized JWT as seen by jwt.ParseWithClaims:
`malformed` marks strings that do not parse as a JWT at all; `alg` is the
header algorithm; `signedWith`/`signedKey` record how the signature was
produced, so that signature verification with method `alg` and key `secret`
succeeds exactly when `signedWith = alg` and `signedKey = secret`. -/
structure JwtToken where
  malformed : Bool := false
  alg : JwtAlg
  signedWith : JwtAlg
  signedKey : String
  userId : String
  iss : String
  exp : Int
  nbf : Int
  iat : Int
deriving DecidableEq, Repr

/-- Error kinds of the system, one constructor per sentinel error value of
internal/auth/auth.go and internal/storage (metadata_storage.go,
user_database_storage.go), plus the binding-validation class and tags for the
two ad-hoc handler errors. -/
inductive AppErr
  | userNotFound
  | databaseNotFound
  | recordNotFound
  | tableNotFound
  | invalidCredentials
  | emailExists
  | databaseExists
  | constraintViolation
  | tokenMalformed
  | tokenInvalid
  | tokenClaimsInvalid
  | unexpectedSigningMethod
  | tokenExpired
  | validationErrors
  | columnNotFound
  | typeMismatch
  | invalidFilterValue
  | invalidSortColumn
  | invalidFieldColumn
  | unauthorized
  | forbidden
  | conflict
  | apiKeyGeneration
  | apiKeyNotFound
  | badRequestPath
  | internalServer
deriving DecidableEq, Repr

/-- Embedding of `auth.GenerateJWT` (internal/auth/auth.go): claims carry the
userID, issuer "nebula-backend", exp = now + expiration, iat = nbf = now, and
the token is signed with HS256 under the configured secret. `now` and the
expiration are in seconds. -/
def GenerateJWT (now : Int) (userID jwtSecret : String) (jwtExpiration : Int) :
    JwtToken :=
  { malformed := false
    alg := .HS256
    signedWith := .HS256
    signedKey := jwtSecret
    userId := userID
    iss := "nebula-backend"
    exp := now + jwtExpiration
    nbf := now
    iat := now }

/-- Embedding of `auth.ValidateJWT` (internal/auth/auth.go): parse the token
(malformed strings map to ErrTokenMalformed); the key function rejects any
method that is not of the HMAC family with ErrUnexpectedSigningMethod; an
invalid signature falls into the default branch ErrTokenInvalid; expired or
not-yet-valid claims map to ErrTokenExpired; an empty userID claim maps to
ErrTokenClaimsInvalid; otherwise the userID is returned. -/
def ValidateJWT (now : Int) (t : JwtToken) (jwtSecret : String) :
    Except AppErr String :=
  if t.malformed then .error .tokenMalformed
  else if !t.alg.isHMAC then .error .unexpectedSigningMethod
  else if !(t.signedWith = t.alg && t.signedKey = jwtSecret) then
    .error .tokenInvalid
  else if t.exp ≤ now || now < t.nbf then .error .tokenExpired
  else if t.userId = "" then .error .tokenClaimsInvalid
  else .ok t.userId

/- ===================== Metadata repository =====================
   Source: internal/storage/metadata_storage.go and the schema ensured by
   internal/storage/database_storage.go (ConnectMetadataDB). -/

/-- A row of the `databases` metadata table: database_id (INTEGER PRIMARY KEY),
owner_id, db_name, file_path, with UNIQUE(owner_id, db_name) and UNIQUE
file_path. -/
structure DbReg where
  databaseId : Int
  ownerId : String
  dbName : String
  filePath : String
deriving DecidableEq, Repr

/-- A row of the `api_keys` metadata table: api_owner_id, api_database_id
(UNIQUE), key (UNIQUE). -/
structure ApiKeyRow where
  ownerId : String
  databaseId : Int
  key : String
deriving DecidableEq, Repr

/-- The metadata store contents relevant to the data plane. -/
structure MetaDB where
  databases : List DbReg
  apiKeys : List ApiKeyRow
deriving Repr

/-- Embedding of `storage.FindDatabasePath`: SELECT file_path FROM databases
WHERE owner_id = ? AND db_name = ? LIMIT 1, with no row mapping to
ErrDatabaseNotFound. -/
def FindDatabasePath (meta : MetaDB) (userId dbName : String) :
    Except AppErr String :=
  match meta.databases.find? (fun r => r.ownerId = userId && r.dbName = dbName) with
  | some r => .ok r.filePath
  | none => .error .databaseNotFound

/-- Embedding of `storage.FindDatabaseIDByNameAndUser`: SELECT database_id
FROM databases WHERE owner_id = ? AND db_name = ? LIMIT 1, with no row mapping
to ErrDatabaseNotFound. -/
def FindDatabaseIDByNameAndUser (meta : MetaDB) (userId dbName : String) :
    Except AppErr Int :=
  match meta.databases.find? (fun r => r.ownerId = userId && r.dbName = dbName) with
  | some r => .ok r.databaseId
  | none => .error .databaseNotFound

/-- Embedding of `storage.StoreAPIKey`: the key is the fixed "neb_" concatenated
with the base64url-encoded random secret (the secret is a parameter here, in
place of the crypto/rand draw); the INSERT into api_keys violates a UNIQUE
constraint exactly when some stored row already has this api_database_id or
this key value, in which case the function returns ErrConflict and the failed
INSERT leaves the table unchanged. Returns the result together with the table
after the call. -/
def StoreAPIKey (keys : List ApiKeyRow) (userId : String) (databaseId : Int)
    (secret : String) : Except AppErr String × List ApiKeyRow :=
  let key := "neb_" ++ secret
  if keys.any (fun r => r.databaseId = databaseId || r.key = key) then
    (.error .conflict, keys)
  else
    (.ok key, keys ++ [⟨userId, databaseId, key⟩])

/-- The uniqueness invariant the api_keys schema enforces: pairwise distinct
api_database_id values, so at most one key is bound to any databaseId. -/
def AtMostOneKeyPerDb (keys : List ApiKeyRow) : Prop :=
  List.Pairwise (fun a b => a.databaseId ≠ b.databaseId) keys

/- ===================== Data-plane handler helpers =====================
   Source: api/handlers/record_handler.go (getUserDBConn) and
   api/handlers/table_handler.go (checkScopeAndGetUserDB). -/

/-- The request identity that CombinedAuthMiddleware attaches to the context:
userId, and databaseId (the key scope, some id for ApiKey auth, none for
Bearer auth). -/
structure ReqCtx where
  userId : String
  databaseId : Option Int
deriving DecidableEq, Repr

/-- Embedding of `RecordHandler.getUserDBConn` (record_handler.go): read userId
from the context, validate db_name and table_name from the path, look up the
file path with FindDatabasePath, then open the tenant store file with
ConnectUserDB. The second component of the result is the list of tenant-store
files opened during the call (ConnectUserDB calls). The databaseId scope held
in the context is never consulted. -/
def getUserDBConn (meta : MetaDB) (ctx : ReqCtx) (dbName tableName : String) :
    Except AppErr (String × String) × List String :=
  if !(IsValidIdentifier dbName && IsValidIdentifier tableName) then
    (.error .badRequestPath, [])
  else
    match FindDatabasePath meta ctx.userId dbName with
    | .error e => (.error e, [])
    | .ok dbFilePath => (.ok (dbFilePath, tableName), [dbFilePath])

/-- Embedding of `TableHandler.checkScopeAndGetUserDB` (table_handler.go):
validate the target db name, resolve the target database id for the
authenticated user, compare it against the databaseId attached by ApiKey
authentication (Forbidden on mismatch), then resolve the file path and open
the tenant store. The second component lists the tenant-store files opened. -/
def checkScopeAndGetUserDB (meta : MetaDB) (ctx : ReqCtx)
    (targetDbName : String) : Except AppErr (String × String) × List String :=
  if !IsValidIdentifier targetDbName then (.error .badRequestPath, [])
  else
    match FindDatabaseIDByNameAndUser meta ctx.userId targetDbName with
    | .error e => (.error e, [])
    | .ok targetDatabaseID =>
      match ctx.databaseId with
      | some authDatabaseID =>
        if authDatabaseID ≠ targetDatabaseID then (.error .forbidden, [])
        else
          match FindDatabasePath meta ctx.userId targetDbName with
          | .error e => (.error e, [])
          | .ok path => (.ok (path, targetDbName), [path])
      | none =>
        match FindDatabasePath meta ctx.userId targetDbName with
        | .error e => (.error e, [])
        | .ok path => (.ok (path, targetDbName), [path])

/- ===================== Error classifier =====================
   Source: api/middleware/error_handler.go (the ErrorHandler middleware). -/

/-- Embedding of the status-code mapping of `middleware.ErrorHandler`: the
errors.Is chain in source order; every error kind not named in the chain falls
through to the 500 default, including ErrForbidden, ErrUnauthorized,
ErrConflict and ErrAPIKeyNotFound. -/
def ErrorHandlerStatus : AppErr → Nat
  | .userNotFound => 404
  | .databaseNotFound => 404
  | .recordNotFound => 404
  | .tableNotFound => 404
  | .invalidCredentials => 401
  | .emailExists => 409
  | .databaseExists => 409
  | .constraintViolation => 409
  | .tokenMalformed => 401
  | .tokenInvalid => 401
  | .tokenClaimsInvalid => 401
  | .unexpectedSigningMethod => 401
  | .tokenExpired => 401
  | .validationErrors => 400
  | .columnNotFound => 400
  | .typeMismatch => 400
  | .invalidFilterValue => 400
  | _ => 500

/-- The metadata contents of spec scenario 4: one user u1 owning databases
appdb (id 1) and other (id 2), with an API key bound to appdb. -/
def demoMeta : MetaDB :=
  { databases :=
      [ { databaseId := 1, ownerId := "u1", dbName := "appdb",
          filePath := "data/u1/appdb.db" }
      , { databaseId := 2, ownerId := "u1", dbName := "other",
          filePath := "data/u1/other.db" } ]
    apiKeys := [ { ownerId := "u1", databaseId := 1, key := "neb_k" } ] }

/-- The request context CombinedAuthMiddleware produces for a request carrying
the API key bound to appdb (database id 1): userId u1, dbScope 1. -/
def demoApiKeyCtx : ReqCtx :=
  { userId := "u1", databaseId := some 1 }

/- ===================== Record coercion: INSERT and UPDATE bodies ==========
   Source: api/handlers/record_handler.go (CreateRecord, UpdateRecord). -/

/-- A JSON value as Go's encoding/json decodes it into map[string]any: numbers
arrive as float64 (modelled exactly as a rational), strings, booleans, null,
or a composite (array/object). -/
inductive JsonVal
  | str (s : String)
  | num (q : Rat)
  | jbool (b : Bool)
  | null
  | composite
deriving DecidableEq, Repr

/-- Embedding of the per-column type-validation switch of CreateRecord: an
INTEGER column accepts numbers whose floor equals themselves and null; REAL
accepts any number and null; TEXT and BLOB accept strings and null; BOOLEAN
accepts booleans, the numbers 0 and 1, and null; unknown types accept
anything. -/
def isValidValueCreate (expectedType : String) (val : JsonVal) : Bool :=
  if expectedType = "INTEGER" then
    match val with
    | .num q => decide (q.den = 1)
    | .null => true
    | _ => false
  else if expectedType = "REAL" then
    match val with
    | .num _ => true
    | .null => true
    | _ => false
  else if expectedType = "TEXT" then
    match val with
    | .str _ => true
    | .null => true
    | _ => false
  else if expectedType = "BLOB" then
    match val with
    | .str _ => true
    | .null => true
    | _ => false
  else if expectedType = "BOOLEAN" then
    match val with
    | .jbool _ => true
    | .num q => decide (q = 0) || decide (q = 1)
    | .null => true
    | _ => false
  else true

/-- Embedding of the per-column type-validation switch of UpdateRecord, which
is stated separately in the source but accepts the same values as the
CreateRecord switch. -/
def isValidValueUpdate (expectedType : String) (val : JsonVal) : Bool :=
  if expectedType = "INTEGER" then
    match val with
    | .num q => decide (q.den = 1)
    | .null => true
    | _ => false
  else if expectedType = "REAL" then
    match val with
    | .num _ => true
    | .null => true
    | _ => false
  else if expectedType = "TEXT" then
    match val with
    | .str _ => true
    | .null => true
    | _ => false
  else if expectedType = "BLOB" then
    match val with
    | .str _ => true
    | .null => true
    | _ => false
  else if expectedType = "BOOLEAN" then
    match val with
    | .jbool _ => true
    | .null => true
    | .num q => decide (q = 0) || decide (q = 1)
    | _ => false
  else true

/-- Lookup of a column's normalized type in the PragmaTableInfo map, whose
keys are the lower-cased column names: `columnTypes[strings.ToLower(key)]`. -/
def lookupColumnType (columnTypes : List (String × String)) (key : String) :
    Option String :=
  (columnTypes.find? (fun p => p.1 = strToLower key)).map (fun p => p.2)

/-- Outcome of processing a request body in CreateRecord or UpdateRecord:
either an immediate 400 BadRequest, or the column and value lists that are
interpolated (columns) and bound (values) into the INSERT or UPDATE. -/
inductive BodyOutcome
  | badRequest (msg : String)
  | proceed (cols : List String) (vals : List JsonVal)
deriving DecidableEq, Repr

/-- Embedding of the validation loop of CreateRecord: keys failing
IsValidIdentifier or equal to "id" case-insensitively are skipped; a surviving
key absent from the schema aborts with an error; a value rejected by the type
switch aborts with an error; surviving pairs are accumulated in order. -/
def buildInsertParts (columnTypes : List (String × String)) :
    List (String × JsonVal) → Except String (List String × List JsonVal)
  | [] => .ok ([], [])
  | (key, val) :: rest =>
    if !IsValidIdentifier key || strToLower key = "id" then
      buildInsertParts columnTypes rest
    else
      match lookupColumnType columnTypes key with
      | none => .error "column does not exist"
      | some expectedType =>
        if isValidValueCreate expectedType val then
          match buildInsertParts columnTypes rest with
          | .error m => .error m
          | .ok (cols, vals) => .ok (key :: cols, val :: vals)
        else .error "invalid data type for column"

/-- Embedding of the validation loop of UpdateRecord (same shape as the
CreateRecord loop, using the update type switch and producing the SET
columns). -/
def buildUpdateParts (columnTypes : List (String × String)) :
    List (String × JsonVal) → Except String (List String × List JsonVal)
  | [] => .ok ([], [])
  | (key, val) :: rest =>
    if !IsValidIdentifier key || strToLower key = "id" then
      buildUpdateParts columnTypes rest
    else
      match lookupColumnType columnTypes key with
      | none => .error "column does not exist"
      | some expectedType =>
        if isValidValueUpdate expectedType val then
          match buildUpdateParts columnTypes rest with
          | .error m => .error m
          | .ok (cols, vals) => .ok (key :: cols, val :: vals)
        else .error "invalid data type for column"

/-- Embedding of CreateRecord's body handling: empty body is a 400; the
validation loop may abort with a 400; if no valid column survives the loop
the request is a 400; otherwise the INSERT proceeds with the surviving
columns interpolated and values bound. -/
def CreateRecordBody (columnTypes : List (String × String))
    (body : List (String × JsonVal)) : BodyOutcome :=
  if body.isEmpty then .badRequest "Request body cannot be empty."
  else
    match buildInsertParts columnTypes body with
    | .error m => .badRequest m
    | .ok (cols, vals) =>
      if cols.isEmpty then .badRequest "No valid columns found in request body."
      else .proceed cols vals

/-- Embedding of UpdateRecord's body handling, parallel to CreateRecordBody. -/
def UpdateRecordBody (columnTypes : List (String × String))
    (body : List (String × JsonVal)) : BodyOutcome :=
  if body.isEmpty then .badRequest "Request body cannot be empty for update."
  else
    match buildUpdateParts columnTypes body with
    | .error m => .badRequest m
    | .ok (cols, vals) =>
      if cols.isEmpty then .badRequest "No valid fields provided for update."
      else .proceed cols vals

/- ===================== Query parsing helpers ==========
   Models of the strconv parsers the source calls. -/

/-- Value of a run of decimal digits. -/
def digitsNat (l : List Char) : Nat :=
  l.foldl (fun acc c => acc * 10 + (c.toNat - 48)) 0

/-- Helper of goParseInt: all characters must be decimal digits. -/
def decDigitsVal : List Char → Option Nat
  | [] => none
  | l => if l.all Char.isDigit then some (digitsNat l) else none

/-- Model of Go's strconv.ParseInt(s, 10, 64) (and strconv.Atoi on 64-bit
platforms): an optional sign followed by at least one decimal digit, with the
result required to fit in int64. -/
def goParseInt (s : String) : Option Int :=
  let signedDigits : Int × List Char :=
    match s.data with
    | '+' :: r => (1, r)
    | '-' :: r => (-1, r)
    | r => (1, r)
  match decDigitsVal signedDigits.2 with
  | none => none
  | some n =>
    let v : Int := signedDigits.1 * n
    if -(2 ^ 63) ≤ v ∧ v ≤ 2 ^ 63 - 1 then some v else none

/-- A float64 value as strconv.ParseFloat produces it: a finite value (kept
exact as a rational; IEEE rounding of in-range values is elided, which no
claim observes), a signed infinity, or NaN. -/
inductive GoFloat
  | finite (q : Rat)
  | inf (neg : Bool)
  | nan
deriving DecidableEq, Repr

/-- Lower-case every character (model of case-insensitive comparison on the
ASCII forms strconv recognizes). -/
def toLowerList (l : List Char) : List Char :=
  l.map Char.toLower

/-- Model of strconv's `special`: an optional sign followed by inf or
infinity (case-insensitive), or an unsigned nan (case-insensitive), spanning
the whole string. A signed nan is not a special form. -/
def parseSpecial (l : List Char) : Option GoFloat :=
  match l with
  | [] => none
  | c :: rest =>
    if c = '+' ∨ c = '-' then
      if toLowerList rest = ['i', 'n', 'f'] ∨
          toLowerList rest = ['i', 'n', 'f', 'i', 'n', 'i', 't', 'y'] then
        some (.inf (decide (c = '-')))
      else none
    else
      if toLowerList l = ['i', 'n', 'f'] ∨
          toLowerList l = ['i', 'n', 'f', 'i', 'n', 'i', 't', 'y'] then
        some (.inf false)
      else if toLowerList l = ['n', 'a', 'n'] then some .nan
      else none

/-- Drop the underscore digit separators before computing a digit run's
value. -/
def stripUnderscores (l : List Char) : List Char :=
  l.filter (fun c => !(c = '_'))

/-- Whether c is a hexadecimal digit. -/
def isHexDigit (c : Char) : Bool :=
  c.isDigit || (('a' ≤ c) && (c ≤ 'f')) || (('A' ≤ c) && (c ≤ 'F'))

/-- Value of one hexadecimal digit. -/
def hexDigitVal (c : Char) : Nat :=
  if c.isDigit then c.toNat - 48 else (Char.toLower c).toNat - 87

/-- Value of a run of hexadecimal digits. -/
def hexDigitsNat (l : List Char) : Nat :=
  l.foldl (fun acc c => acc * 16 + hexDigitVal c) 0

/-- Port of strconv's `underscoreOK` scanning loop: saw is the class of the
previous character (caret for the start, 0 for a digit or base prefix,
underscore, or bang for anything else); an underscore must be preceded and
followed by a digit. -/
def underscoreOKAux (hex : Bool) : List Char → Char → Bool
  | [], saw => !(saw = '_')
  | c :: rest, saw =>
    if c.isDigit ||
        (hex && (('a' ≤ Char.toLower c) && (Char.toLower c ≤ 'f'))) then
      underscoreOKAux hex rest '0'
    else if c = '_' then
      if saw = '0' then underscoreOKAux hex rest '_' else false
    else if saw = '_' then false
    else underscoreOKAux hex rest '!'

/-- Port of strconv's `underscoreOK`: underscores may appear only between
digits, or between a base prefix (0b, 0o, 0x) and a digit. -/
def underscoreOK (l : List Char) : Bool :=
  let l1 : List Char :=
    match l with
    | c :: r => if c = '+' ∨ c = '-' then r else l
    | [] => l
  match l1 with
  | '0' :: x :: r =>
    if Char.toLower x = 'b' ∨ Char.toLower x = 'o' ∨ Char.toLower x = 'x' then
      underscoreOKAux (decide (Char.toLower x = 'x')) r '0'
    else underscoreOKAux false l1 '^'
  | _ => underscoreOKAux false l1 '^'

/-- The smallest positive value that float64 rounding sends to infinity:
the midpoint between the largest finite float64 and 2 to the 1024 (the tie
rounds to the even candidate, infinity). -/
def float64MaxBoundary : Rat :=
  (2 : Rat) ^ (1024 : Nat) - (2 : Rat) ^ (970 : Nat)

/-- Finish a parsed mantissa-times-exponent value: a magnitude at or beyond
the float64 rounding boundary makes ParseFloat return an infinity together
with ErrRange, which the program's conversion treats as failure, so the model
collapses it to none; in-range values are kept exact with the sign applied. -/
def finishParsedFloat (neg : Bool) (v : Rat) : Option GoFloat :=
  if float64MaxBoundary ≤ v then none
  else some (.finite (if neg then -v else v))

/-- Parse an exponent suffix: nothing (exponent 0), or the marker character
(lo or hi) followed by an optional sign and at least one decimal digit run
(underscores permitted), consuming the rest of the string. -/
def parseExpPart (l : List Char) (lo hi : Char) : Option Int :=
  match l with
  | [] => some 0
  | c :: r =>
    if c = lo ∨ c = hi then
      let signStripped : Bool × List Char :=
        match r with
        | '+' :: rr => (false, rr)
        | '-' :: rr => (true, rr)
        | rr => (false, rr)
      let edSplit := signStripped.2.span (fun d => d.isDigit || d = '_')
      let ed := stripUnderscores edSplit.1
      if ed.isEmpty ∨ ¬ edSplit.2.isEmpty then none
      else
        some (if signStripped.1 then -(digitsNat ed : Int)
              else (digitsNat ed : Int))
    else none

/-- Parse a decimal floating-point literal after the sign: an integer part
and/or fractional part holding at least one digit (underscores permitted),
then an optional e-exponent; the value is mantissa times a power of ten. -/
def parseDecFloat (neg : Bool) (l : List Char) : Option GoFloat :=
  let ipSplit := l.span (fun c => c.isDigit || c = '_')
  let fpSplit : List Char × List Char :=
    match ipSplit.2 with
    | '.' :: r => r.span (fun c => c.isDigit || c = '_')
    | _ => ([], ipSplit.2)
  let ip := stripUnderscores ipSplit.1
  let fp := stripUnderscores fpSplit.1
  if ip.isEmpty && fp.isEmpty then none
  else
    match parseExpPart fpSplit.2 'e' 'E' with
    | none => none
    | some e =>
      finishParsedFloat neg
        (((digitsNat ip : Rat) + (digitsNat fp : Rat) / (10 : Rat) ^ fp.length) *
          (10 : Rat) ^ e)

/-- Parse a hexadecimal floating-point literal after the sign and the 0x
prefix: hexadecimal integer and/or fractional digits (underscores permitted)
and a mandatory p-exponent; the value is the hexadecimal mantissa times a
power of two. -/
def parseHexFloat (neg : Bool) (l : List Char) : Option GoFloat :=
  let ipSplit := l.span (fun c => isHexDigit c || c = '_')
  let fpSplit : List Char × List Char :=
    match ipSplit.2 with
    | '.' :: r => r.span (fun c => isHexDigit c || c = '_')
    | _ => ([], ipSplit.2)
  let ip := stripUnderscores ipSplit.1
  let fp := stripUnderscores fpSplit.1
  if ip.isEmpty && fp.isEmpty then none
  else if fpSplit.2.isEmpty then none
  else
    match parseExpPart fpSplit.2 'p' 'P' with
    | none => none
    | some e =>
      finishParsedFloat neg
        (((hexDigitsNat ip : Rat) +
            (hexDigitsNat fp : Rat) / (16 : Rat) ^ fp.length) *
          (2 : Rat) ^ e)

/-- Parse a number (non-special) form: validate the underscore placement as
strconv does, strip the sign, and dispatch on the 0x prefix to the
hexadecimal or decimal grammar. -/
def parseNumber (l : List Char) : Option GoFloat :=
  if !underscoreOK l then none
  else
    let signStripped : Bool × List Char :=
      match l with
      | '+' :: r => (false, r)
      | '-' :: r => (true, r)
      | r => (false, r)
    match signStripped.2 with
    | '0' :: x :: r =>
      if x = 'x' ∨ x = 'X' then parseHexFloat signStripped.1 r
      else parseDecFloat signStripped.1 signStripped.2
    | _ => parseDecFloat signStripped.1 signStripped.2

/-- Model of Go's strconv.ParseFloat(s, 64): the special forms inf, infinity
and nan (optionally signed for the infinities); otherwise a decimal or
0x-prefixed hexadecimal literal with underscore separators validated as in
strconv, where a magnitude past the float64 rounding boundary yields ErrRange
and therefore failure for the caller. In-range finite values are kept exact
as rationals (IEEE rounding elided). -/
def goParseFloat (s : String) : Option GoFloat :=
  match parseSpecial s.data with
  | some f => some f
  | none => parseNumber s.data

/- ===================== List-records query planner ==========
   Source: internal/core/query_params.go (ParseListQueryOptions,
   IsReservedParam) and internal/storage/user_database_storage.go
   (ListRecords). -/

/-- The reserved query-parameter names of internal/core/query_params.go. -/
def ReservedParams : List String :=
  ["limit", "offset", "sort", "order", "fields"]

/-- Embedding of `core.IsReservedParam`: membership of the lower-cased key. -/
def IsReservedParam (key : String) : Bool :=
  ReservedParams.contains (strToLower key)

/-- Embedding of `core.ListQueryOptions`. -/
structure ListQueryOptions where
  limit : Int
  offset : Int
  sortBy : String
  sortOrder : String
  fields : List String
deriving DecidableEq, Repr

/-- Model of url.Values.Get: the first value recorded for the key, or the
empty string. -/
def valuesGet (qp : List (String × List String)) (key : String) : String :=
  match qp.find? (fun p => p.1 = key) with
  | some (_, v :: _) => v
  | _ => ""

/-- The limit clause of ParseListQueryOptions: default 100, must be an
integer in 1..1000. -/
def parseLimit (qp : List (String × List String)) : Except String Int :=
  let limitStr := valuesGet qp "limit"
  if limitStr = "" then .ok 100
  else
    match goParseInt limitStr with
    | none => .error "invalid limit parameter: must be an integer"
    | some l =>
      if l < 1 then .error "invalid limit parameter: must be at least 1"
      else if 1000 < l then .error "invalid limit parameter: maximum is 1000"
      else .ok l

/-- The offset clause of ParseListQueryOptions: default 0, must be a
non-negative integer. -/
def parseOffset (qp : List (String × List String)) : Except String Int :=
  let offsetStr := valuesGet qp "offset"
  if offsetStr = "" then .ok 0
  else
    match goParseInt offsetStr with
    | none => .error "invalid offset parameter: must be an integer"
    | some o =>
      if o < 0 then .error "invalid offset parameter: must be non-negative"
      else .ok o

/-- The sort clause of ParseListQueryOptions: empty means unset, otherwise
the value must pass identifier validation. -/
def parseSort (qp : List (String × List String)) : Except String String :=
  if valuesGet qp "sort" = "" then .ok ""
  else if IsValidIdentifier (valuesGet qp "sort") then .ok (valuesGet qp "sort")
  else .error "invalid sort parameter: not a valid column name"

/-- The order clause of ParseListQueryOptions: default asc; otherwise the
lower-cased value must be asc or desc. -/
def parseOrder (qp : List (String × List String)) : Except String String :=
  let order := valuesGet qp "order"
  if order = "" then .ok "asc"
  else
    let lowerOrder := strToLower order
    if lowerOrder = "asc" ∨ lowerOrder = "desc" then .ok lowerOrder
    else .error "invalid order parameter: must be asc or desc"

/-- The fields clause of ParseListQueryOptions: comma-separated, entries
trimmed, empty entries skipped, every remaining entry must pass identifier
validation. -/
def fieldEntries (fieldsStr : String) : List String :=
  ((fieldsStr.splitOn ",").map String.trim).filter (fun f => !(f = ""))

def parseFields (qp : List (String × List String)) :
    Except String (List String) :=
  if valuesGet qp "fields" = "" then .ok []
  else if (fieldEntries (valuesGet qp "fields")).all IsValidIdentifier then
    .ok (fieldEntries (valuesGet qp "fields"))
  else .error "invalid fields parameter: not a valid column name"

/-- Embedding of `core.ParseListQueryOptions`: the five clauses in source
order, each able to abort parsing with a validation error. -/
def ParseListQueryOptions (qp : List (String × List String)) :
    Except String ListQueryOptions :=
  match parseLimit qp with
  | .error m => .error m
  | .ok limit =>
    match parseOffset qp with
    | .error m => .error m
    | .ok offset =>
      match parseSort qp with
      | .error m => .error m
      | .ok sortBy =>
        match parseOrder qp with
        | .error m => .error m
        | .ok sortOrder =>
          match parseFields qp with
          | .error m => .error m
          | .ok fields =>
            .ok { limit := limit, offset := offset, sortBy := sortBy,
                  sortOrder := sortOrder, fields := fields }

/-- A value bound as a SQL parameter for an equality filter. -/
inductive FilterArg
  | intArg (n : Int)
  | floatArg (v : GoFloat)
  | textArg (s : String)
deriving DecidableEq, Repr

/-- Embedding of the filter loop of `storage.ListRecords` (step 4): reserved
parameters and parameters with no values are skipped; a key failing
identifier validation or absent from the schema aborts with
ErrInvalidFilterValue; the first value is converted according to the column's
normalized type (INTEGER and BOOLEAN via ParseInt, REAL via ParseFloat, with
a failed conversion aborting with ErrInvalidFilterValue; TEXT passed through
unchanged); BLOB columns and columns of any other type are skipped silently.
Surviving filters carry the column (interpolated as "col = ?") and the
converted value (bound as a parameter). -/
def buildFilters (columnTypes : List (String × String)) :
    List (String × List String) → Except AppErr (List (String × FilterArg))
  | [] => .ok []
  | (key, values) :: rest =>
    if IsReservedParam key then buildFilters columnTypes rest
    else
      match values with
      | [] => buildFilters columnTypes rest
      | filterValueStr :: _ =>
        if !IsValidIdentifier key then .error .invalidFilterValue
        else
          match lookupColumnType columnTypes key with
          | none => .error .invalidFilterValue
          | some expectedType =>
            if expectedType = "INTEGER" ∨ expectedType = "BOOLEAN" then
              match goParseInt filterValueStr with
              | some vInt =>
                match buildFilters columnTypes rest with
                | .error e => .error e
                | .ok l => .ok ((key, .intArg vInt) :: l)
              | none => .error .invalidFilterValue
            else if expectedType = "REAL" then
              match goParseFloat filterValueStr with
              | some vFloat =>
                match buildFilters columnTypes rest with
                | .error e => .error e
                | .ok l => .ok ((key, .floatArg vFloat) :: l)
              | none => .error .invalidFilterValue
            else if expectedType = "TEXT" then
              match buildFilters columnTypes rest with
              | .error e => .error e
              | .ok l => .ok ((key, .textArg filterValueStr) :: l)
            else if expectedType = "BLOB" then buildFilters columnTypes rest
            else buildFilters columnTypes rest

/-- The parts of the SQL statements ListRecords assembles: the identifiers it
interpolates (table, selected fields, WHERE columns, ORDER BY column and
direction) and the values it binds (args) or renders as integers (limit,
offset). -/
structure ListPlan where
  table : String
  selectFields : List String
  whereCols : List String
  args : List FilterArg
  orderBy : Option (String × String)
  limit : Int
  offset : Int
deriving DecidableEq, Repr

/-- Embedding of `storage.ListRecords` up to SQL assembly: the sort column
and every selected field must exist in the schema, the filters are built by
the filter loop, and the ORDER BY clause is the requested sort column with
its direction, or id ASC when no sort is given and the table has an id
column. -/
def ListRecordsPlan (columnTypes : List (String × String)) (tableName : String)
    (qp : List (String × List String)) (opts : ListQueryOptions) :
    Except AppErr ListPlan :=
  if opts.sortBy ≠ "" ∧ (lookupColumnType columnTypes opts.sortBy).isNone then
    .error .invalidSortColumn
  else if opts.fields.any (fun f => (lookupColumnType columnTypes f).isNone) then
    .error .invalidFieldColumn
  else
    match buildFilters columnTypes qp with
    | .error e => .error e
    | .ok filters =>
      .ok { table := tableName
            selectFields := opts.fields
            whereCols := filters.map (fun p => p.1)
            args := filters.map (fun p => p.2)
            orderBy :=
              if opts.sortBy ≠ "" then
                some (opts.sortBy,
                  if strToLower opts.sortOrder = "desc" then "DESC" else "ASC")
              else if (lookupColumnType columnTypes "id").isSome then
                some ("id", "ASC")
              else none
            limit := opts.limit
            offset := opts.offset }

/-- Spec-side predicate for C6, following the claim's words: a non-reserved
query parameter with at least one value is bad when its key fails identifier
validation, or is not in the schema, or its value fails the conversion its
column type requires (integer for INTEGER and BOOLEAN, float for REAL). -/
def FilterEntryBad (columnTypes : List (String × String))
    (e : String × List String) : Bool :=
  if IsReservedParam e.1 then false
  else
    match e.2 with
    | [] => false
    | v :: _ =>
      !IsValidIdentifier e.1 ||
      (match lookupColumnType columnTypes e.1 with
       | none => true
       | some t =>
         if t = "INTEGER" ∨ t = "BOOLEAN" then (goParseInt v).isNone
         else if t = "REAL" then (goParseFloat v).isNone
         else false)

/-- Spec-side contribution of a single query parameter for C6, following the
claim's words: reserved or value-less parameters contribute nothing; an
INTEGER or BOOLEAN column contributes the parsed integer, REAL the parsed
float, TEXT the unchanged string; BLOB and unknown-typed columns contribute
nothing. -/
def FilterEntrySpec (columnTypes : List (String × String))
    (e : String × List String) : Option (String × FilterArg) :=
  if IsReservedParam e.1 then none
  else
    match e.2 with
    | [] => none
    | v :: _ =>
      match lookupColumnType columnTypes e.1 with
      | none => none
      | some t =>
        if t = "INTEGER" ∨ t = "BOOLEAN" then
          match goParseInt v with
          | some n => some (e.1, .intArg n)
          | none => none
        else if t = "REAL" then
          match goParseFloat v with
          | some q => some (e.1, .floatArg q)
          | none => none
        else if t = "TEXT" then some (e.1, .textArg v)
        else none

/- ===================== Rate limiter =====================
   Source: the middleware rate limiter (RateLimiter, NewRateLimiter,
   RateLimiter.Allow, RateLimitMiddleware). -/

/-- Embedding of the middleware RateLimiter: the per-IP recorded timestamps
(the requests map), the maximum count and the window length. Timestamps are
integers; the per-limiter mutex serializes Allow calls, so Allow is modelled
as a sequential state transformer. -/
structure RateLimiter where
  requests : String → List Int
  limit : Nat
  window : Int

/-- Embedding of NewRateLimiter, parameterized by the limit and window the
source fixes at 5 requests per one-minute window. -/
def NewRateLimiter (limit : Nat) (window : Int) : RateLimiter :=
  { requests := fun _ => [], limit := limit, window := window }

/-- Embedding of RateLimiter.Allow: under the lock, keep only the recorded
timestamps strictly after now - window, store the filtered list back, reject
when the remaining count has reached the limit, and otherwise append now and
accept. -/
def RateLimiter.Allow (rl : RateLimiter) (ip : String) (now : Int) :
    Bool × RateLimiter :=
  let windowStart := now - rl.window
  let filteredRequests :=
    (rl.requests ip).filter (fun t => decide (windowStart < t))
  if rl.limit ≤ filteredRequests.length then
    (false,
      { rl with
        requests := fun j =>
          if j = ip then filteredRequests else rl.requests j })
  else
    (true,
      { rl with
        requests := fun j =>
          if j = ip then filteredRequests ++ [now] else rl.requests j })

/-- Run a sequence of (ip, arrival time) requests through the limiter in
order, annotating each request with its accept decision. -/
def runLimiter (rl : RateLimiter) :
    List (String × Int) → List (String × Int × Bool)
  | [] => []
  | (ip, t) :: rest =>
    (ip, t, (rl.Allow ip t).1) :: runLimiter (rl.Allow ip t).2 rest

/-- Number of timestamps of l inside the half-open window (t0, t0 + w]. -/
def countWindow (l : List Int) (t0 w : Int) : Nat :=
  (l.filter (fun x => decide (t0 < x) && decide (x ≤ t0 + w))).length

/-- Number of accepted requests from ip in the annotated run whose arrival
time lies in the half-open window (t0, t0 + w]. -/
def acceptedInWindow (res : List (String × Int × Bool)) (ip : String)
    (t0 w : Int) : Nat :=
  (res.filter (fun e =>
    decide (e.1 = ip) && e.2.2 && decide (t0 < e.2.1) &&
      decide (e.2.1 ≤ t0 + w))).length

/-- Coupling invariant for the C7 induction: acc records, per IP, the
accepted arrival times so far; each stored slot equals those accepted times
newer than c - window for some past filtering instant c at most T, where T
bounds all past arrival times. -/
def LimiterInv (rl : RateLimiter) (acc : String → List Int) (T : Int) :
    Prop :=
  ∀ j, ∃ c, c ≤ T ∧
    rl.requests j = (acc j).filter (fun x => decide (c - rl.window < x))

end Nebula

namespace Nebula

lemma isNameChar_iff (c : Char) : isNameChar c = true ↔ WordCharSpec c := by
  simp only [isNameChar, WordCharSpec, Bool.or_eq_true, Bool.and_eq_true,
    decide_eq_true_eq, beq_iff_eq]
  tauto

lemma charUtf8Bytes_of_nameChar {c : Char} (h : isNameChar c = true) :
    charUtf8Bytes c = 1 := by
  have hval : c.toNat ≤ 0x7F := by
    rcases (isNameChar_iff c).mp h with ⟨_, h2⟩ | ⟨_, h2⟩ | ⟨_, h2⟩ | h2
    · exact Nat.le_trans (show c.toNat ≤ 90 from h2) (by decide)
    · exact Nat.le_trans (show c.toNat ≤ 122 from h2) (by decide)
    · exact Nat.le_trans (show c.toNat ≤ 57 from h2) (by decide)
    · subst h2; decide
  simp [charUtf8Bytes, hval]

lemma goStrLen_of_match {s : String} (h : s.data.all isNameChar = true) :
    goStrLen s = s.length := by
  have : ∀ l : List Char, l.all isNameChar = true →
      (l.map charUtf8Bytes).sum = l.length := by
    intro l hl
    induction l with
    | nil => simp
    | cons c cs ih =>
        simp only [List.all_cons, Bool.and_eq_true] at hl
        simp [charUtf8Bytes_of_nameChar hl.1, ih hl.2, Nat.add_comm]

  rw [goStrLen, this s.data h, String.length]

/-- C9: IsValidIdentifier s returns true exactly when s is a nonempty string
of at most 64 characters drawn from [A-Za-z0-9_]; there is no restriction on
a leading digit (any string of word characters within the length bounds is
accepted, digits first or not). -/
theorem c9_isValidIdentifier_spec (s : String) :
    IsValidIdentifier s = true ↔
      1 ≤ s.length ∧ s.length ≤ 64 ∧ ∀ c ∈ s.data, WordCharSpec c := by
  unfold IsValidIdentifier nameValidationMatch
  constructor
  · intro h
    simp only [Bool.and_eq_true, decide_eq_true_eq, Bool.not_eq_true'] at h
    obtain ⟨⟨⟨hne, hall⟩, hpos⟩, hle⟩ := h
    have hlen : goStrLen s = s.length := goStrLen_of_match hall
    refine ⟨by omega, by omega, fun c hc => ?_⟩
    exact (isNameChar_iff c).mp (List.all_eq_true.mp hall c hc)
  · rintro ⟨h1, h2, h3⟩
    have hall : s.data.all isNameChar = true :=
      List.all_eq_true.mpr fun c hc => (isNameChar_iff c).mpr (h3 c hc)
    have hlen : goStrLen s = s.length := goStrLen_of_match hall
    have hne : s.data.isEmpty = false := by
      rcases hd : s.data with _ | _
      · rw [String.length, hd] at h1; simp at h1
      · rfl
    simp only [Bool.and_eq_true, decide_eq_true_eq, Bool.not_eq_true', hne,
      hall, hlen]
    exact ⟨⟨⟨trivial, trivial⟩, by omega⟩, by omega⟩

/-- C3 counterexample: a well-formed token whose header algorithm is HS384,
signed with the correct secret, is accepted by ValidateJWT and yields the
userId, contradicting the claim that every non-HS256 token is rejected. -/
theorem c3_hs384_token_accepted :
    ValidateJWT 0
      { malformed := false, alg := .HS384, signedWith := .HS384,
        signedKey := "secret", userId := "u1", iss := "nebula-backend",
        exp := 100, nbf := 0, iat := 0 }
      "secret" = .ok "u1" := rfl

/-- C3 (amended): ValidateJWT rejects, with UnexpectedSigningMethod, every
parseable token whose header algorithm is outside the HMAC family (HS256,
HS384, HS512); tokens using any HMAC algorithm pass the key-function check. -/
theorem c3_validateJWT_rejects_non_hmac (now : Int) (t : JwtToken)
    (secret : String) (hm : t.malformed = false)
    (halg : t.alg.isHMAC = false) :
    ValidateJWT now t secret = .error .unexpectedSigningMethod := by
  simp [ValidateJWT, hm, halg]

/-- C3 witness: the amended theorem applied to a concrete RS256 token. -/
theorem c3_witness :
    ValidateJWT 0
      { malformed := false, alg := .RS256, signedWith := .RS256,
        signedKey := "secret", userId := "u1", iss := "nebula-backend",
        exp := 100, nbf := 0, iat := 0 }
      "secret" = .error .unexpectedSigningMethod :=
  c3_validateJWT_rejects_non_hmac 0 _ "secret" rfl rfl

/-- C10: validating a freshly minted token with the same secret at mint time
round-trips: for a positive expiration it returns exactly the userID used at
mint time when that userID is nonempty, and fails with TokenClaimsInvalid
when the userID is empty. -/
theorem c10_jwt_roundtrip (now : Int) (userID secret : String) (d : Int)
    (hd : 0 < d) :
    ValidateJWT now (GenerateJWT now userID secret d) secret =
      (if userID = "" then .error .tokenClaimsInvalid else .ok userID) := by
  have hexp : ¬ (now + d ≤ now) := by omega
  by_cases hu : userID = "" <;>
    simp [ValidateJWT, GenerateJWT, JwtAlg.isHMAC, hexp, hu]

/-- C10 witness: the round-trip theorem applied at concrete inputs, both for
a nonempty and for the empty userID. -/
theorem c10_witness :
    ValidateJWT 0 (GenerateJWT 0 "alice" "s3cret" 86400) "s3cret" =
        .ok "alice" ∧
      ValidateJWT 0 (GenerateJWT 0 "" "s3cret" 86400) "s3cret" =
        .error .tokenClaimsInvalid := by
  constructor
  · have h := c10_jwt_roundtrip 0 "alice" "s3cret" 86400 (by decide)
    simpa using h
  · have h := c10_jwt_roundtrip 0 "" "s3cret" 86400 (by decide)
    simpa using h

/-- C1: refuted on the record handlers. Under the API-key context scoped to
appdb (database id 1), a record-plane request addressed to the other database
owned by the same user (database id 2, a scope mismatch) is not rejected with
Forbidden: getUserDBConn resolves other's file path and opens that tenant
store file, because the record handlers never consult the databaseId scope.
The table-handler helper on the same input does return Forbidden without any
tenant-store call, as the repository's own architecture documentation says
every handler should. -/
theorem c1_record_handler_skips_scope_check :
    FindDatabaseIDByNameAndUser demoMeta "u1" "other" = .ok 2 ∧
      demoApiKeyCtx.databaseId = some 1 ∧
      getUserDBConn demoMeta demoApiKeyCtx "other" "tasks" =
        (.ok ("data/u1/other.db", "tasks"), ["data/u1/other.db"]) ∧
      checkScopeAndGetUserDB demoMeta demoApiKeyCtx "other" =
        (.error .forbidden, []) :=
  ⟨rfl, rfl, rfl, rfl⟩

/-- C2: refuted. In spec scenario 4 (API key bound to appdb, request for the
tables of other), the table handler produces the Forbidden error kind, but the
error classifier has no case for Forbidden, so the response status is the 500
fallback, not 403. -/
theorem c2_forbidden_maps_to_500 :
    checkScopeAndGetUserDB demoMeta demoApiKeyCtx "other" =
        (.error .forbidden, []) ∧
      ErrorHandlerStatus .forbidden = 500 ∧
      ErrorHandlerStatus .forbidden ≠ 403 :=
  ⟨rfl, rfl, by decide⟩

/-- C8: StoreAPIKey on a database that already has a stored key returns
Conflict and leaves the api_keys table unchanged, and a call that succeeds
preserves the at-most-one-key-per-database invariant. -/
theorem c8_store_api_key_conflict (keys : List ApiKeyRow) (userId : String)
    (databaseId : Int) (secret : String) :
    ((∃ r ∈ keys, r.databaseId = databaseId) →
       StoreAPIKey keys userId databaseId secret = (.error .conflict, keys)) ∧
      (AtMostOneKeyPerDb keys →
        AtMostOneKeyPerDb (StoreAPIKey keys userId databaseId secret).2) := by
  constructor
  · rintro ⟨r, hr, hdb⟩
    have hany : keys.any
        (fun q => q.databaseId = databaseId || q.key = "neb_" ++ secret) = true := by
      refine List.any_eq_true.mpr ⟨r, hr, ?_⟩
      simp [hdb]
    simp [StoreAPIKey, hany]
  · intro hinv
    by_cases hany : keys.any
        (fun q => q.databaseId = databaseId || q.key = "neb_" ++ secret) = true
    · simpa [StoreAPIKey, hany] using hinv
    · have hall : ∀ r ∈ keys, r.databaseId ≠ databaseId := by
        intro r hr hdb
        exact hany (List.any_eq_true.mpr ⟨r, hr, by simp [hdb]⟩)
      simp only [StoreAPIKey, hany, if_false, Bool.not_eq_true] at *
      rw [if_neg (by simp [hany])]
      refine List.pairwise_append.mpr ⟨hinv, List.pairwise_singleton _ _, ?_⟩
      intro a ha b hb
      simp only [List.mem_singleton] at hb
      subst hb
      exact fun h => hall a ha h

/-- C8 witness: the Conflict branch of the theorem applied to a one-row table
that already holds a key for database 7. -/
theorem c8_witness :
    StoreAPIKey [⟨"u1", 7, "neb_old"⟩] "u1" 7 "new" =
      (.error .conflict, [⟨"u1", 7, "neb_old"⟩]) :=
  (c8_store_api_key_conflict [⟨"u1", 7, "neb_old"⟩] "u1" 7 "new").1
    ⟨⟨"u1", 7, "neb_old"⟩, by simp, rfl⟩

lemma buildInsertParts_all_skipped (columnTypes : List (String × String)) :
    ∀ body : List (String × JsonVal),
      (∀ p ∈ body, IsValidIdentifier p.1 = false ∨ strToLower p.1 = "id") →
      buildInsertParts columnTypes body = .ok ([], []) := by
  intro body h
  induction body with
  | nil => rfl
  | cons p rest ih =>
      obtain ⟨key, val⟩ := p
      have hrest : ∀ q ∈ rest,
          IsValidIdentifier q.1 = false ∨ strToLower q.1 = "id" :=
        fun q hq => h q (by simp [hq])
      rcases h (key, val) (by simp) with hk | hk <;>
        simp [buildInsertParts, hk, ih hrest]

lemma buildUpdateParts_all_skipped (columnTypes : List (String × String)) :
    ∀ body : List (String × JsonVal),
      (∀ p ∈ body, IsValidIdentifier p.1 = false ∨ strToLower p.1 = "id") →
      buildUpdateParts columnTypes body = .ok ([], []) := by
  intro body h
  induction body with
  | nil => rfl
  | cons p rest ih =>
      obtain ⟨key, val⟩ := p
      have hrest : ∀ q ∈ rest,
          IsValidIdentifier q.1 = false ∨ strToLower q.1 = "id" :=
        fun q hq => h q (by simp [hq])
      rcases h (key, val) (by simp) with hk | hk <;>
        simp [buildUpdateParts, hk, ih hrest]

/-- C4 counterexample: a body mixing the valid key description with the
invalid key bad-dash-key is accepted, with the invalid key silently dropped,
where the claim requires the request to be rejected. -/
theorem c4_mixed_body_accepted :
    CreateRecordBody [("description", "TEXT")]
      [("description", JsonVal.str "doc"), ("bad-key", JsonVal.str "x")] =
      .proceed ["description"] [JsonVal.str "doc"] := by decide

/-- C4 (amended): in both the INSERT and the UPDATE body loops, a column key
failing the identifier regex or equal to id case-insensitively is silently
dropped from the statement rather than causing rejection; the request is
rejected only when every key is dropped, in which case it fails with the
respective no-valid-columns BadRequest. -/
theorem c4_invalid_keys_dropped (columnTypes : List (String × String)) :
    (∀ (key : String) (val : JsonVal) (rest : List (String × JsonVal)),
        IsValidIdentifier key = false ∨ strToLower key = "id" →
        buildInsertParts columnTypes ((key, val) :: rest) =
          buildInsertParts columnTypes rest) ∧
      (∀ (key : String) (val : JsonVal) (rest : List (String × JsonVal)),
        IsValidIdentifier key = false ∨ strToLower key = "id" →
        buildUpdateParts columnTypes ((key, val) :: rest) =
          buildUpdateParts columnTypes rest) ∧
      (∀ body : List (String × JsonVal), body ≠ [] →
        (∀ p ∈ body, IsValidIdentifier p.1 = false ∨ strToLower p.1 = "id") →
        CreateRecordBody columnTypes body =
          .badRequest "No valid columns found in request body.") ∧
      ∀ body : List (String × JsonVal), body ≠ [] →
        (∀ p ∈ body, IsValidIdentifier p.1 = false ∨ strToLower p.1 = "id") →
        UpdateRecordBody columnTypes body =
          .badRequest "No valid fields provided for update." := by
  refine ⟨?_, ?_, ?_, ?_⟩
  · intro key val rest hk
    rcases hk with hk | hk <;> simp [buildInsertParts, hk]
  · intro key val rest hk
    rcases hk with hk | hk <;> simp [buildUpdateParts, hk]
  · intro body hne hall
    have h1 := buildInsertParts_all_skipped columnTypes body hall
    have h2 : body.isEmpty = false := by
      cases body with
      | nil => exact absurd rfl hne
      | cons a l => rfl
    simp [CreateRecordBody, h2, h1]
  · intro body hne hall
    have h1 := buildUpdateParts_all_skipped columnTypes body hall
    have h2 : body.isEmpty = false := by
      cases body with
      | nil => exact absurd rfl hne
      | cons a l => rfl
    simp [UpdateRecordBody, h2, h1]

/-- C4 witness: the amended theorem's UPDATE conjunct applied to a body whose
keys are the id column in upper case and a key failing the identifier
regex. -/
theorem c4_witness :
    UpdateRecordBody [("a", "TEXT")]
      [("ID", JsonVal.str "x"), ("b-", JsonVal.str "y")] =
      .badRequest "No valid fields provided for update." :=
  (c4_invalid_keys_dropped [("a", "TEXT")]).2.2.2
    [("ID", JsonVal.str "x"), ("b-", JsonVal.str "y")] (by simp) (by decide)

lemma getUserDBConn_ok_valid {meta : MetaDB} {ctx : ReqCtx}
    {dbName tableName path tbl : String} {trace : List String}
    (h : getUserDBConn meta ctx dbName tableName = (.ok (path, tbl), trace)) :
    IsValidIdentifier dbName = true ∧ IsValidIdentifier tbl = true := by
  unfold getUserDBConn at h
  split at h
  · simp at h
  next hcond =>
    have hv : (IsValidIdentifier dbName && IsValidIdentifier tableName) = true := by
      revert hcond
      cases hb : IsValidIdentifier dbName && IsValidIdentifier tableName <;> simp
    split at h
    · simp at h
    · rw [Prod.mk.injEq] at h
      obtain ⟨h1, h2⟩ := h
      rw [Except.ok.injEq, Prod.mk.injEq] at h1
      obtain ⟨hpath, htbl⟩ := h1
      rw [Bool.and_eq_true] at hv
      exact ⟨hv.1, htbl ▸ hv.2⟩

lemma buildInsertParts_ok {columnTypes : List (String × String)}
    {body : List (String × JsonVal)} {cols : List String}
    {vals : List JsonVal}
    (h : buildInsertParts columnTypes body = .ok (cols, vals)) :
    (∀ c ∈ cols, IsValidIdentifier c = true) ∧ vals.length = cols.length := by
  induction body generalizing cols vals with
  | nil =>
      rw [buildInsertParts, Except.ok.injEq, Prod.mk.injEq] at h
      obtain ⟨h1, h2⟩ := h
      subst h1; subst h2
      simp
  | cons p rest ih =>
      obtain ⟨key, val⟩ := p
      rw [buildInsertParts] at h
      split at h
      · exact ih h
      next hcond =>
        have hk : IsValidIdentifier key = true := by
          revert hcond
          cases hb : IsValidIdentifier key <;> simp
        split at h
        · simp at h
        · split at h
          · split at h
            · simp at h
            next cs vs heq =>
              rw [Except.ok.injEq, Prod.mk.injEq] at h
              obtain ⟨h1, h2⟩ := h
              subst h1; subst h2
              obtain ⟨ihc, ihl⟩ := ih heq
              refine ⟨?_, by simp [ihl]⟩
              intro c hc
              rcases List.mem_cons.mp hc with hc | hc
              · exact hc ▸ hk
              · exact ihc c hc
          · simp at h

lemma buildUpdateParts_ok {columnTypes : List (String × String)}
    {body : List (String × JsonVal)} {cols : List String}
    {vals : List JsonVal}
    (h : buildUpdateParts columnTypes body = .ok (cols, vals)) :
    (∀ c ∈ cols, IsValidIdentifier c = true) ∧ vals.length = cols.length := by
  induction body generalizing cols vals with
  | nil =>
      rw [buildUpdateParts, Except.ok.injEq, Prod.mk.injEq] at h
      obtain ⟨h1, h2⟩ := h
      subst h1; subst h2
      simp
  | cons p rest ih =>
      obtain ⟨key, val⟩ := p
      rw [buildUpdateParts] at h
      split at h
      · exact ih h
      next hcond =>
        have hk : IsValidIdentifier key = true := by
          revert hcond
          cases hb : IsValidIdentifier key <;> simp
        split at h
        · simp at h
        · split at h
          · split at h
            · simp at h
            next cs vs heq =>
              rw [Except.ok.injEq, Prod.mk.injEq] at h
              obtain ⟨h1, h2⟩ := h
              subst h1; subst h2
              obtain ⟨ihc, ihl⟩ := ih heq
              refine ⟨?_, by simp [ihl]⟩
              intro c hc
              rcases List.mem_cons.mp hc with hc | hc
              · exact hc ▸ hk
              · exact ihc c hc
          · simp at h

lemma parseSort_ok {qp : List (String × List String)} {s : String}
    (h : parseSort qp = .ok s) : s = "" ∨ IsValidIdentifier s = true := by
  unfold parseSort at h
  split at h
  · rw [Except.ok.injEq] at h
    exact Or.inl h.symm
  · split at h
    next hvalid =>
      rw [Except.ok.injEq] at h
      exact Or.inr (h ▸ hvalid)
    · simp at h

lemma parseFields_ok {qp : List (String × List String)} {fs : List String}
    (h : parseFields qp = .ok fs) : ∀ f ∈ fs, IsValidIdentifier f = true := by
  unfold parseFields at h
  split at h
  · rw [Except.ok.injEq] at h
    subst h
    simp
  · split at h
    next hall =>
      rw [Except.ok.injEq] at h
      subst h
      exact fun f hf => List.all_eq_true.mp hall f hf
    · simp at h

lemma parseListQueryOptions_ok {qp : List (String × List String)}
    {opts : ListQueryOptions} (h : ParseListQueryOptions qp = .ok opts) :
    (opts.sortBy = "" ∨ IsValidIdentifier opts.sortBy = true) ∧
      ∀ f ∈ opts.fields, IsValidIdentifier f = true := by
  unfold ParseListQueryOptions at h
  split at h
  · simp at h
  · split at h
    · simp at h
    · split at h
      · simp at h
      next sortBy hsort =>
        split at h
        · simp at h
        · split at h
          · simp at h
          next fields hfields =>
            rw [Except.ok.injEq] at h
            subst h
            exact ⟨parseSort_ok hsort, parseFields_ok hfields⟩

lemma buildFilters_ok_keys {columnTypes : List (String × String)}
    {qp : List (String × List String)} {l : List (String × FilterArg)}
    (h : buildFilters columnTypes qp = .ok l) :
    ∀ p ∈ l, IsValidIdentifier p.1 = true := by
  induction qp generalizing l with
  | nil =>
      unfold buildFilters at h
      rw [Except.ok.injEq] at h
      subst h
      simp
  | cons e rest ih =>
      obtain ⟨key, values⟩ := e
      unfold buildFilters at h
      split at h
      · exact ih h
      · split at h
        · exact ih h
        · split at h
          · simp at h
          next hcond =>
            have hk : IsValidIdentifier key = true := by
              revert hcond
              cases hb : IsValidIdentifier key <;> simp
            split at h
            · simp at h
            · split at h
              · split at h
                · split at h
                  · simp at h
                  next l2 heq =>
                    rw [Except.ok.injEq] at h
                    subst h
                    intro p hp
                    rcases List.mem_cons.mp hp with hp | hp
                    · subst hp; exact hk
                    · exact ih heq p hp
                · simp at h
              · split at h
                · split at h
                  · split at h
                    · simp at h
                    next l2 heq =>
                      rw [Except.ok.injEq] at h
                      subst h
                      intro p hp
                      rcases List.mem_cons.mp hp with hp | hp
                      · subst hp; exact hk
                      · exact ih heq p hp
                  · simp at h
                · split at h
                  · split at h
                    · simp at h
                    next l2 heq =>
                      rw [Except.ok.injEq] at h
                      subst h
                      intro p hp
                      rcases List.mem_cons.mp hp with hp | hp
                      · subst hp; exact hk
                      · exact ih heq p hp
                  · split at h
                    · exact ih h
                    · exact ih h

/-- C5: every identifier the record-plane operations interpolate into SQL
satisfies IsValidIdentifier at the moment it is used, and the user values
travel as bound parameters: a successful getUserDBConn implies the path
db and table names are valid (the table name is the one interpolated into
the INSERT, SELECT, UPDATE and DELETE statements); the columns surviving the
CreateRecord and UpdateRecord loops are all valid and are matched
one-for-one by bound values; and a successful list plan only interpolates
valid field, filter and sort-column identifiers, with one bound argument per
WHERE column. -/
theorem c5_identifiers_validated_values_bound :
    (∀ (meta : MetaDB) (ctx : ReqCtx) (dbName tableName path tbl : String)
        (trace : List String),
        getUserDBConn meta ctx dbName tableName = (.ok (path, tbl), trace) →
        IsValidIdentifier dbName = true ∧ IsValidIdentifier tbl = true) ∧
      (∀ (columnTypes : List (String × String))
          (body : List (String × JsonVal)) (cols : List String)
          (vals : List JsonVal),
          CreateRecordBody columnTypes body = .proceed cols vals →
          (∀ c ∈ cols, IsValidIdentifier c = true) ∧
            vals.length = cols.length) ∧
      (∀ (columnTypes : List (String × String))
          (body : List (String × JsonVal)) (cols : List String)
          (vals : List JsonVal),
          UpdateRecordBody columnTypes body = .proceed cols vals →
          (∀ c ∈ cols, IsValidIdentifier c = true) ∧
            vals.length = cols.length) ∧
      ∀ (columnTypes : List (String × String)) (tableName : String)
          (qp : List (String × List String)) (opts : ListQueryOptions)
          (plan : ListPlan),
          ParseListQueryOptions qp = .ok opts →
          ListRecordsPlan columnTypes tableName qp opts = .ok plan →
          (∀ f ∈ plan.selectFields, IsValidIdentifier f = true) ∧
            (∀ c ∈ plan.whereCols, IsValidIdentifier c = true) ∧
            (∀ col dir, plan.orderBy = some (col, dir) →
              IsValidIdentifier col = true) ∧
            plan.args.length = plan.whereCols.length := by
  refine ⟨?_, ?_, ?_, ?_⟩
  · intro meta ctx dbName tableName path tbl trace h
    exact getUserDBConn_ok_valid h
  · intro columnTypes body cols vals h
    unfold CreateRecordBody at h
    split at h
    · simp at h
    · split at h
      · simp at h
      next cols2 vals2 heq =>
        split at h
        · simp at h
        · rw [BodyOutcome.proceed.injEq] at h
          obtain ⟨h1, h2⟩ := h
          subst h1; subst h2
          exact buildInsertParts_ok heq
  · intro columnTypes body cols vals h
    unfold UpdateRecordBody at h
    split at h
    · simp at h
    · split at h
      · simp at h
      next cols2 vals2 heq =>
        split at h
        · simp at h
        · rw [BodyOutcome.proceed.injEq] at h
          obtain ⟨h1, h2⟩ := h
          subst h1; subst h2
          exact buildUpdateParts_ok heq
  · intro columnTypes tableName qp opts plan hparse hplan
    obtain ⟨hsort, hfields⟩ := parseListQueryOptions_ok hparse
    unfold ListRecordsPlan at hplan
    split at hplan
    · simp at hplan
    · split at hplan
      · simp at hplan
      · split at hplan
        · simp at hplan
        next filters heq =>
          rw [Except.ok.injEq] at hplan
          subst hplan
          refine ⟨fun f hf => hfields f hf, ?_, ?_, by simp⟩
          · intro c hc
            simp only [List.mem_map] at hc
            obtain ⟨p, hp, hpc⟩ := hc
            exact hpc ▸ buildFilters_ok_keys heq p hp
          · intro col dir hcd
            dsimp only at hcd
            split at hcd
            next hsb =>
              rw [Option.some.injEq, Prod.mk.injEq] at hcd
              rcases hsort with hsort | hsort
              · exact absurd hsort hsb
              · exact hcd.1 ▸ hsort
            · split at hcd
              · rw [Option.some.injEq, Prod.mk.injEq] at hcd
                rw [← hcd.1]
                decide
              · simp at hcd

/-- C5 witness: the first conjunct of the theorem applied to a successful
concrete getUserDBConn call. -/
theorem c5_witness :
    IsValidIdentifier "appdb" = true ∧ IsValidIdentifier "tasks" = true :=
  c5_identifiers_validated_values_bound.1 demoMeta demoApiKeyCtx "appdb"
    "tasks" "data/u1/appdb.db" "tasks" ["data/u1/appdb.db"] rfl

lemma buildFilters_cons (columnTypes : List (String × String)) (key : String)
    (values : List String) (rest : List (String × List String)) :
    buildFilters columnTypes ((key, values) :: rest) =
      if FilterEntryBad columnTypes (key, values) then
        .error .invalidFilterValue
      else
        match FilterEntrySpec columnTypes (key, values) with
        | none => buildFilters columnTypes rest
        | some kv =>
          match buildFilters columnTypes rest with
          | .error e => .error e
          | .ok l => .ok (kv :: l) := by
  by_cases hres : IsReservedParam key = true
  · simp [buildFilters, FilterEntryBad, FilterEntrySpec, hres]
  · cases values with
    | nil => simp [buildFilters, FilterEntryBad, FilterEntrySpec, hres]
    | cons v vs =>
      by_cases hid : IsValidIdentifier key = true
      · cases hlk : lookupColumnType columnTypes key with
        | none =>
            simp [buildFilters, FilterEntryBad, FilterEntrySpec, hres, hid, hlk]
        | some t =>
          by_cases ht1 : t = "INTEGER" ∨ t = "BOOLEAN"
          · cases hpi : goParseInt v with
            | none =>
                simp [buildFilters, FilterEntryBad, FilterEntrySpec, hres,
                  hid, hlk, ht1, hpi]
            | some n =>
                simp [buildFilters, FilterEntryBad, FilterEntrySpec, hres,
                  hid, hlk, ht1, hpi]
          · by_cases ht2 : t = "REAL"
            · cases hpf : goParseFloat v with
              | none =>
                  simp [buildFilters, FilterEntryBad, FilterEntrySpec, hres,
                    hid, hlk, ht1, ht2, hpf]
              | some q =>
                  simp [buildFilters, FilterEntryBad, FilterEntrySpec, hres,
                    hid, hlk, ht1, ht2, hpf]
            · by_cases ht3 : t = "TEXT"
              · simp [buildFilters, FilterEntryBad, FilterEntrySpec, hres,
                  hid, hlk, ht1, ht2, ht3]
              · by_cases ht4 : t = "BLOB"
                · simp [buildFilters, FilterEntryBad, FilterEntrySpec, hres,
                    hid, hlk, ht1, ht2, ht3, ht4]
                · simp [buildFilters, FilterEntryBad, FilterEntrySpec, hres,
                    hid, hlk, ht1, ht2, ht3, ht4]
      · have hid2 : IsValidIdentifier key = false := by
          revert hid
          cases hb : IsValidIdentifier key <;> simp
        simp [buildFilters, FilterEntryBad, FilterEntrySpec, hres, hid2]

/-- C6: characterization of the ListRecords filter loop. If any non-reserved
query parameter with a value has a key failing identifier validation, or a
key absent from the schema, or a value that does not parse as required by the
column's type (integer for INTEGER and BOOLEAN, float for REAL), the loop
fails with InvalidFilterValue; otherwise it succeeds and produces exactly one
equality filter per surviving parameter, with INTEGER and BOOLEAN values
parsed as integers, REAL values parsed as floats, TEXT values passed through
unchanged, and BLOB and unknown-typed columns silently skipped. -/
theorem c6_filter_semantics (columnTypes : List (String × String))
    (qp : List (String × List String)) :
    (qp.any (FilterEntryBad columnTypes) = true →
        buildFilters columnTypes qp = .error .invalidFilterValue) ∧
      (qp.all (fun e => !FilterEntryBad columnTypes e) = true →
        buildFilters columnTypes qp =
          .ok (qp.filterMap (FilterEntrySpec columnTypes))) := by
  induction qp with
  | nil => exact ⟨by simp, fun _ => by simp [buildFilters]⟩
  | cons e rest ih =>
      obtain ⟨key, values⟩ := e
      constructor
      · intro hany
        rw [buildFilters_cons]
        by_cases hbad : FilterEntryBad columnTypes (key, values) = true
        · rw [if_pos hbad]
        · rw [if_neg hbad]
          have hrest : rest.any (FilterEntryBad columnTypes) = true := by
            simp only [List.any_cons, Bool.or_eq_true] at hany
            rcases hany with h | h
            · exact absurd h hbad
            · exact h
          have he := ih.1 hrest
          cases hspec : FilterEntrySpec columnTypes (key, values) with
          | none => rw [he]
          | some kv => rw [he]
      · intro hall
        simp only [List.all_cons, Bool.and_eq_true] at hall
        obtain ⟨hhead, hrest⟩ := hall
        have hbad : ¬ FilterEntryBad columnTypes (key, values) = true := by
          revert hhead
          cases hb : FilterEntryBad columnTypes (key, values) <;> simp
        rw [buildFilters_cons, if_neg hbad, List.filterMap_cons]
        have hok := ih.2 hrest
        cases hspec : FilterEntrySpec columnTypes (key, values) with
        | none => rw [hok]
        | some kv => rw [hok]

/-- C6 witness: the theorem applied to a concrete INTEGER column, once with a
parseable filter value and once with an unparseable one (while a reserved
parameter is skipped). -/
theorem c6_witness :
    buildFilters [("priority", "INTEGER")]
        [("priority", ["1"]), ("limit", ["5"])] =
      .ok [("priority", FilterArg.intArg 1)] ∧
      buildFilters [("priority", "INTEGER")] [("priority", ["abc"])] =
        .error .invalidFilterValue := by
  constructor
  · have h := (c6_filter_semantics [("priority", "INTEGER")]
      [("priority", ["1"]), ("limit", ["5"])]).2 (by decide)
    rw [h]
    rfl
  · exact (c6_filter_semantics [("priority", "INTEGER")]
      [("priority", ["abc"])]).1 (by decide)

lemma chain_le_head :
    ∀ {l : List (String × Int)} {a : String × Int},
      List.Chain' (fun x y : String × Int => x.2 ≤ y.2) (a :: l) →
      ∀ p ∈ l, a.2 ≤ p.2 := by
  intro l
  induction l with
  | nil =>
      intro a h p hp
      simp at hp
  | cons b m ih =>
      intro a h p hp
      rw [List.chain'_cons] at h
      rcases List.mem_cons.mp hp with hp | hp
      · exact hp ▸ h.1
      · exact le_trans h.1 (ih h.2 p hp)

lemma countWindow_append_in {l : List Int} {t0 w t : Int}
    (h1 : t0 < t) (h2 : t ≤ t0 + w) :
    countWindow (l ++ [t]) t0 w = countWindow l t0 w + 1 := by
  simp [countWindow, List.filter_append, h1, h2]

lemma countWindow_append_out {l : List Int} {t0 w t : Int}
    (h : ¬ (t0 < t ∧ t ≤ t0 + w)) :
    countWindow (l ++ [t]) t0 w = countWindow l t0 w := by
  have hf : (decide (t0 < t) && decide (t ≤ t0 + w)) = false := by
    rcases not_and_or.mp h with h | h <;> simp [h]
  simp [countWindow, List.filter_append, hf]

lemma acceptedInWindow_cons {j : String} {t : Int} {ok : Bool}
    {res : List (String × Int × Bool)} {ip : String} {t0 w : Int} :
    acceptedInWindow ((j, t, ok) :: res) ip t0 w =
      (if j = ip ∧ ok = true ∧ t0 < t ∧ t ≤ t0 + w then 1 else 0) +
        acceptedInWindow res ip t0 w := by
  by_cases h1 : j = ip
  · by_cases h2 : ok = true
    · by_cases h3 : t0 < t
      · by_cases h4 : t ≤ t0 + w
        · simp [acceptedInWindow, List.filter_cons, h1, h2, h3, h4,
            Nat.add_comm]
        · simp [acceptedInWindow, List.filter_cons, h1, h2, h3, h4]
      · simp [acceptedInWindow, List.filter_cons, h1, h2, h3]
    · simp [acceptedInWindow, List.filter_cons, h1, h2]
  · simp [acceptedInWindow, List.filter_cons, h1]

lemma limiter_main (ip : String) (t0 : Int) :
    ∀ (trace : List (String × Int)) (rl : RateLimiter)
      (acc : String → List Int) (T : Int),
      0 < rl.window →
      (∀ p ∈ trace, T ≤ p.2) →
      List.Chain' (fun a b : String × Int => a.2 ≤ b.2) trace →
      LimiterInv rl acc T →
      countWindow (acc ip) t0 rl.window ≤ rl.limit →
      countWindow (acc ip) t0 rl.window +
          acceptedInWindow (runLimiter rl trace) ip t0 rl.window ≤
        rl.limit := by
  intro trace
  induction trace with
  | nil =>
      intro rl acc T hw hT hchain hinv hbound
      simpa [runLimiter, acceptedInWindow] using hbound
  | cons p rest ih =>
      obtain ⟨j, t⟩ := p
      intro rl acc T hw hT hchain hinv hbound
      have hTt : T ≤ t := hT (j, t) (List.mem_cons_self _ _)
      have hrest_ge : ∀ q ∈ rest, t ≤ q.2 := chain_le_head hchain
      have hchain2 : List.Chain' (fun a b : String × Int => a.2 ≤ b.2) rest :=
        hchain.tail
      obtain ⟨c, hcT, hslot⟩ := hinv j
      have hfilter :
          (rl.requests j).filter (fun x => decide (t - rl.window < x)) =
            (acc j).filter (fun x => decide (t - rl.window < x)) := by
        rw [hslot, List.filter_filter]
        apply List.filter_congr
        intro x hx
        cases hxc : decide (t - rl.window < x) with
        | false => simp
        | true =>
            have hx1 : t - rl.window < x := of_decide_eq_true hxc
            have hx2 : c - rl.window < x := by omega
            simp [hx2]
      by_cases hrej :
          rl.limit ≤
            ((rl.requests j).filter
              (fun x => decide (t - rl.window < x))).length
      · have hallow : rl.Allow j t =
            (false,
              { rl with
                requests := fun k =>
                  if k = j then
                    (rl.requests j).filter
                      (fun x => decide (t - rl.window < x))
                  else rl.requests k }) := by
          simp only [RateLimiter.Allow]
          rw [if_pos hrej]
        simp only [runLimiter, hallow]
        rw [acceptedInWindow_cons]
        rw [if_neg (by simp)]
        rw [Nat.zero_add]
        refine ih
          { rl with
            requests := fun k =>
              if k = j then
                (rl.requests j).filter (fun x => decide (t - rl.window < x))
              else rl.requests k }
          acc t hw hrest_ge hchain2 ?_ hbound
        intro k
        by_cases hk : k = j
        · subst hk
          exact ⟨t, le_refl t, by simp [hfilter]⟩
        · obtain ⟨ck, hck, hckeq⟩ := hinv k
          exact ⟨ck, le_trans hck hTt, by simp [hk, hckeq]⟩
      · have hacc :
            ((rl.requests j).filter
              (fun x => decide (t - rl.window < x))).length < rl.limit :=
          Nat.lt_of_not_le hrej
        have hallow : rl.Allow j t =
            (true,
              { rl with
                requests := fun k =>
                  if k = j then
                    (rl.requests j).filter
                      (fun x => decide (t - rl.window < x)) ++ [t]
                  else rl.requests k }) := by
          simp only [RateLimiter.Allow]
          rw [if_neg hrej]
        simp only [runLimiter, hallow]
        rw [acceptedInWindow_cons]
        set acc2 : String → List Int :=
          fun k => if k = j then acc k ++ [t] else acc k with hacc2
        have hinv2 : LimiterInv
            { rl with
              requests := fun k =>
                if k = j then
                  (rl.requests j).filter
                    (fun x => decide (t - rl.window < x)) ++ [t]
                else rl.requests k }
            acc2 t := by
          intro k
          by_cases hk : k = j
          · subst hk
            refine ⟨t, le_refl t, ?_⟩
            have ht : t - rl.window < t := by omega
            simp [hacc2, List.filter_append, hfilter, ht]
          · obtain ⟨ck, hck, hckeq⟩ := hinv k
            exact ⟨ck, le_trans hck hTt, by simp [hacc2, hk, hckeq]⟩
        by_cases hhead : j = ip ∧ t0 < t ∧ t ≤ t0 + rl.window
        · obtain ⟨hj, h3, h4⟩ := hhead
          rw [if_pos ⟨hj, rfl, h3, h4⟩]
          subst hj
          have hcw : countWindow (acc2 j) t0 rl.window =
              countWindow (acc j) t0 rl.window + 1 := by
            rw [show acc2 j = acc j ++ [t] by simp [hacc2]]
            exact countWindow_append_in h3 h4
          have hmono : countWindow (acc j ++ [t]) t0 rl.window ≤
              ((acc j ++ [t]).filter
                (fun x => decide (t - rl.window < x))).length := by
            apply List.Sublist.length_le
            apply List.monotone_filter_right
            intro a ha
            simp only [Bool.and_eq_true, decide_eq_true_eq] at ha ⊢
            omega
          have heq2 : ((acc j ++ [t]).filter
              (fun x => decide (t - rl.window < x))).length =
                ((rl.requests j).filter
                  (fun x => decide (t - rl.window < x))).length + 1 := by
            have ht : t - rl.window < t := by omega
            simp [List.filter_append, ht, hfilter]
          have hbound2 : countWindow (acc2 j) t0 rl.window ≤ rl.limit := by
            have h5 : countWindow (acc j ++ [t]) t0 rl.window ≤
                ((rl.requests j).filter
                  (fun x => decide (t - rl.window < x))).length + 1 :=
              le_trans hmono (le_of_eq heq2)
            rw [show acc2 j = acc j ++ [t] by simp [hacc2]]
            omega
          have hrec := ih
            { rl with
              requests := fun k =>
                if k = j then
                  (rl.requests j).filter
                    (fun x => decide (t - rl.window < x)) ++ [t]
                else rl.requests k }
            acc2 t hw hrest_ge hchain2 hinv2 hbound2
          dsimp only at hrec
          rw [hcw] at hrec
          omega
        · have hneg :
              ¬ (j = ip ∧ true = true ∧ t0 < t ∧ t ≤ t0 + rl.window) := by
            rintro ⟨ha, hb, hc, hd⟩
            exact hhead ⟨ha, hc, hd⟩
          rw [if_neg hneg]
          have hcw : countWindow (acc2 ip) t0 rl.window =
              countWindow (acc ip) t0 rl.window := by
            by_cases hj : j = ip
            · subst hj
              rw [show acc2 j = acc j ++ [t] by simp [hacc2]]
              apply countWindow_append_out
              intro hc
              exact hhead ⟨rfl, hc.1, hc.2⟩
            · have hij : ¬ ip = j := fun h => hj h.symm
              rw [show acc2 ip = acc ip by simp [hacc2, hij]]
          have hbound2 : countWindow (acc2 ip) t0 rl.window ≤ rl.limit :=
            hcw ▸ hbound
          have hrec := ih
            { rl with
              requests := fun k =>
                if k = j then
                  (rl.requests j).filter
                    (fun x => decide (t - rl.window < x)) ++ [t]
                else rl.requests k }
            acc2 t hw hrest_ge hchain2 hinv2 hbound2
          dsimp only at hrec
          rw [hcw] at hrec
          omega

/-- C7: within any half-open time window of length W, at most limit requests
from a single IP are accepted by the rate limiter, for every chronologically
ordered request trace started from a fresh limiter (the source fixes
limit = 5 and W = one minute). -/
theorem c7_rate_limiter_window_bound (limit : Nat) (window : Int)
    (trace : List (String × Int)) (ip : String) (t0 : Int)
    (hw : 0 < window)
    (hchron : List.Chain' (fun a b : String × Int => a.2 ≤ b.2) trace) :
    acceptedInWindow (runLimiter (NewRateLimiter limit window) trace) ip t0
        window ≤ limit := by
  cases trace with
  | nil => simp [runLimiter, acceptedInWindow]
  | cons p rest =>
      have hT : ∀ q ∈ p :: rest, p.2 ≤ q.2 := by
        intro q hq
        rcases List.mem_cons.mp hq with hq | hq
        · exact hq ▸ le_refl _
        · exact chain_le_head hchron q hq
      have hinv : LimiterInv (NewRateLimiter limit window)
          (fun _ => []) p.2 := by
        intro j
        exact ⟨p.2, le_refl _, by simp [NewRateLimiter]⟩
      have hbound :
          countWindow ((fun _ => ([] : List Int)) ip) t0 window ≤ limit := by
        simp [countWindow]
      have hmain := limiter_main ip t0 (p :: rest)
        (NewRateLimiter limit window) (fun _ => []) p.2 hw hT hchron hinv
        hbound
      simpa [countWindow] using hmain

/-- C7 witness: six rapid requests from one IP against the default limiter
parameters; at most five land in the window. -/
theorem c7_witness :
    acceptedInWindow
        (runLimiter (NewRateLimiter 5 60)
          [("a", 1), ("a", 2), ("a", 3), ("a", 4), ("a", 5), ("a", 6)])
        "a" 0 60 ≤ 5 :=
  c7_rate_limiter_window_bound 5 60
    [("a", 1), ("a", 2), ("a", 3), ("a", 4), ("a", 5), ("a", 6)] "a" 0
    (by decide) (by simp [List.chain'_cons])

end Nebula
